import Mathlib

/-!
# libkni: namespace unmount, record store, configuration translator, orchestration service

A shallow embedding of `pkg/netns/mount.go`, `pkg/cni/store.go`, `pkg/cni/utils.go`
and `pkg/cni/kni.go`, followed by the properties proved about them.

Conventions of the embedding
* a Go `error` is `Option GoError` (`none` is `nil`);
* the operating system, the helper binaries, the JSON codec, the CNI backend and the
  namespace handles are external: they are fields of an environment record, and every
  call made to them is appended to an event trace;
* a Go string is `GoString`, the sequence of its bytes;
* a Go map is `GoMap α`, `none` being the nil map.
-/

namespace Libkni

/-! ## Go strings -/

/-- A Go string: a sequence of bytes, valid UTF-8 or not. -/
structure GoString where
  bytes : List UInt8
  deriving DecidableEq, Repr

/-- The Go string of a text: its UTF-8 encoding. -/
def GoString.ofText (s : String) : GoString :=
  { bytes := s.data.flatMap String.utf8EncodeChar }

instance : Coe String GoString := ⟨GoString.ofText⟩

instance : Append GoString := ⟨fun a b => { bytes := a.bytes ++ b.bytes }⟩

/-- The length `len(s)` of a Go string, in bytes. -/
def GoString.len (s : GoString) : Nat := s.bytes.length

/-! ## Go errors -/

/-- Go error values, as far as the code builds, wraps and compares them. -/
inductive GoError where
  /-- A `syscall.Errno` value. -/
  | errno (code : Nat)
  /-- The value of `fmt.Errorf(msg + "%w", inner)`. -/
  | wrap (msg : GoString) (inner : GoError)
  /-- Any other error value, identified by its message. -/
  | other (msg : GoString)
  deriving DecidableEq, Repr

/-- Linux errno `ENOENT`. -/
def ENOENT : Nat := 2
/-- Linux errno `EBUSY`. -/
def EBUSY : Nat := 16
/-- Linux errno `EINVAL`. -/
def EINVAL : Nat := 22

/-! ## pkg/netns/mount.go -/

/-- The constant `fuseSuperMagic`, defined in statfs(2). -/
def fuseSuperMagic : Int := 0x65735546

/-- What the unmount code does to the outside world, in order. -/
inductive MountEvent where
  /-- One run of `exec.Command(helperBinary, "-u", target)`. -/
  | helper (binary : GoString)
  /-- One call of `unix.Unmount`. -/
  | syscall
  /-- One `time.Sleep` of the given number of milliseconds. -/
  | sleep (ms : Nat)
  deriving DecidableEq, Repr

/-- The operating system as seen by `mount.go`. -/
structure MountEnv where
  /-- The result of `unix.Statfs(dir, &st)`: the field `st.Type`, or an error. -/
  statfs : GoString → Except GoError Int
  /-- The result of running helper `binary` with `-u target`. -/
  runHelper : GoString → GoString → Option GoError
  /-- The errno of the call of `unix.Unmount(target, flags)` that is preceded by
  `n` earlier calls (`none` is success). -/
  sysUnmount : Nat → GoString → Int → Option Nat

/-- The function `isFUSE`. -/
def isFUSE (env : MountEnv) (dir : GoString) : Bool :=
  match env.statfs dir with
  | .error _ => false
  | .ok ty => ty == fuseSuperMagic

/-- The loop of `unmountFUSE` over the remaining helper binaries; `err` is the
variable `err` of the source. -/
def unmountFUSELoop (env : MountEnv) (target : GoString) :
    List GoString → Option GoError → List MountEvent → Option GoError × List MountEvent
  | [], err, tr => (err, tr)
  | helperBinary :: rest, _, tr =>
    match env.runHelper helperBinary target with
    | none => (none, tr ++ [MountEvent.helper helperBinary])
    | some e => unmountFUSELoop env target rest (some e) (tr ++ [MountEvent.helper helperBinary])

/-- The function `unmountFUSE`. -/
def unmountFUSE (env : MountEnv) (target : GoString) : Option GoError × List MountEvent :=
  unmountFUSELoop env target ["fusermount3", "fusermount"] none []

/-- The loop `for i := 0; i < 50; i++` of `unmount`, with `left = 50 - i` iterations
still to run, and the `return` that follows it. -/
def unmountLoop (env : MountEnv) (target : GoString) (flags : Int) :
    Nat → Nat → List MountEvent → Option GoError × List MountEvent
  | 0, _, tr => (some (GoError.wrap ("failed to unmount target " ++ target ++ ": ")
      (GoError.errno EBUSY)), tr)
  | left + 1, i, tr =>
    match env.sysUnmount i target flags with
    | some e =>
      if e = EBUSY then
        unmountLoop env target flags left (i + 1) (tr ++ [MountEvent.syscall, MountEvent.sleep 50])
      else (some (GoError.errno e), tr ++ [MountEvent.syscall])
    | none => (none, tr ++ [MountEvent.syscall])

/-- The function `unmount`. -/
def unmount (env : MountEnv) (target : GoString) (flags : Int) :
    Option GoError × List MountEvent :=
  if isFUSE env target then
    match unmountFUSE env target with
    | (none, tr) => (none, tr)
    | (some _, tr) => unmountLoop env target flags 50 0 tr
  else unmountLoop env target flags 50 0 []

/-- The function `Unmount`. -/
def Unmount (env : MountEnv) (target : GoString) (flags : Int) :
    Option GoError × List MountEvent :=
  match unmount env target flags with
  | (some err, tr) => if err ≠ GoError.errno EINVAL then (some err, tr) else (none, tr)
  | (none, tr) => (none, tr)

/-- The events that precede the syscall loop of `unmount`: the helper runs, when the
target is on a FUSE filesystem. -/
def helperEvents (env : MountEnv) (target : GoString) : List MountEvent :=
  if isFUSE env target then (unmountFUSE env target).2 else []

/-- The trace of `n` busy attempts: each is a syscall followed by a 50 ms sleep. -/
def busyRounds (n : Nat) : List MountEvent :=
  (List.replicate n [MountEvent.syscall, MountEvent.sleep 50]).flatten

/-- The number of `unix.Unmount` calls in a trace. -/
def syscallCount (tr : List MountEvent) : Nat :=
  tr.count MountEvent.syscall

/-- An operating system whose unmount is always busy. -/
def envAlwaysBusy : MountEnv :=
  { statfs := fun _ => .ok 0, runHelper := fun _ _ => none, sysUnmount := fun _ _ _ => some EBUSY }

/-- An operating system on FUSE whose helpers fail and whose unmount succeeds at
the third attempt. -/
def envThird : MountEnv :=
  { statfs := fun _ => .ok fuseSuperMagic
    runHelper := fun _ _ => some (GoError.other "exit status 1")
    sysUnmount := fun n _ _ => if n < 2 then some EBUSY else none }

/-- An operating system whose unmount is busy once and then reports the given errno. -/
def envSecondFails (e : Nat) : MountEnv :=
  { statfs := fun _ => .error (GoError.errno ENOENT)
    runHelper := fun _ _ => none
    sysUnmount := fun n _ _ => if n < 1 then some EBUSY else some e }

/-- An operating system whose first unmount reports the given errno. -/
def envFirstFails (e : Nat) : MountEnv :=
  { statfs := fun _ => .ok 0, runHelper := fun _ _ => none, sysUnmount := fun _ _ _ => some e }

/-! ## Go maps -/

/-- A Go map with string keys; `none` is the nil map. -/
def GoMap (α : Type) : Type := Option (GoString → Option α)

/-- The lookup `v, ok := m[k]`; a nil map has no key. -/
def mapGet {α : Type} (m : GoMap α) (k : GoString) : Option α :=
  match m with
  | none => none
  | some f => f k

/-- The lookup `m[k]` of a string map, with the zero value for a missing key. -/
def mapIndex (m : GoMap GoString) (k : GoString) : GoString :=
  (mapGet m k).getD ""

/-- The assignment `m[k] = v` on the entries of a non-nil map. -/
def mapSet {α : Type} (f : GoString → Option α) (k : GoString) (v : α) : GoString → Option α :=
  fun k2 => if k2 = k then some v else f k2

/-- The value of `make(map[string]T)`: non-nil, no entries. -/
def mapMake {α : Type} : GoString → Option α := fun _ => none

/-! ## Types of the external packages (kni-api `beta`, go-cni, apimachinery) -/

/-- The message `beta.IPConfig`. -/
structure IPConfig where
  Ip : List GoString
  Mac : GoString
  deriving DecidableEq, Repr

/-- The message `beta.PortMapping`; `Protocol` is the number of the enum value. -/
structure PortMapping where
  Protocol : Int
  ContainerPort : Int
  HostPort : Int
  HostIp : GoString
  deriving DecidableEq, Repr

/-- The message `beta.DNSConfig`. -/
structure DNSConfig where
  Servers : List GoString
  Searches : List GoString
  Options : List GoString
  deriving DecidableEq, Repr

/-- The struct `cni.PortMapping`. -/
structure CniPortMapping where
  HostPort : Int
  ContainerPort : Int
  Protocol : GoString
  HostIP : GoString
  deriving DecidableEq, Repr

/-- The struct `cni.BandWidth` (four `uint64` fields). -/
structure BandWidth where
  IngressRate : Nat
  IngressBurst : Nat
  EgressRate : Nat
  EgressBurst : Nat
  deriving DecidableEq, Repr

/-- The struct `cni.DNS`. -/
structure DNS where
  Servers : List GoString
  Searches : List GoString
  Options : List GoString
  deriving DecidableEq, Repr

/-- The values of `cni.NamespaceOpts` that the code builds. -/
inductive NamespaceOpt where
  | labels (m : GoMap GoString)
  | args (k v : GoString)
  | capability (name : GoString) (value : GoMap GoString)
  | capabilityPortMap (ports : List CniPortMapping)
  | capabilityBandWidth (bw : BandWidth)
  | capabilityDNS (dns : DNS)
  | capabilityCgroupPath (path : GoString)

/-- One entry of `Config.IPConfigs` in a CNI result, by the text `IP.String()` gives. -/
structure CniIPConfig where
  IP : GoString
  deriving DecidableEq, Repr

/-- The struct `cni.Config`: one interface of a CNI result. -/
structure CniConfig where
  IPConfigs : List CniIPConfig
  Mac : GoString
  Sandbox : GoString
  deriving DecidableEq, Repr

/-- The struct `cni.Result`, of which the code reads `Interfaces`; the map is given
by its entries in the order the `range` loop visits them. -/
structure CniResult where
  Interfaces : List (GoString × CniConfig)
  deriving DecidableEq, Repr

/-- The conversion of an integer to `int64`: its wrap into the range from -2^63 to
2^63 - 1. -/
def toInt64 (n : Int) : Int := (n + 2 ^ 63) % 2 ^ 64 - 2 ^ 63

/-- A `resource.Quantity`, of which the code reads only `Value()`; `value` is that
`int64`. -/
structure Quantity where
  value : Int
  lower : -(2 ^ 63) ≤ value
  upper : value < 2 ^ 63

/-- The quantity of which `Value()` is the `int64` that `n` converts to. -/
def Quantity.ofInt (n : Int) : Quantity :=
  { value := toInt64 n
    lower := by unfold toInt64; omega
    upper := by unfold toInt64; omega }

/-- The library functions of the translator that are not part of the repository. -/
structure TranslatorLib where
  /-- The function `resource.ParseQuantity`. -/
  parseQuantity : GoString → Except GoError Quantity
  /-- The method `Protocol.String()` of the enum `beta.Protocol`. -/
  protocolString : Int → GoString
  /-- The function `strings.ToLower`. -/
  toLower : GoString → GoString

/-! ## pkg/cni/store.go -/

/-- The constant `PodBucket`. -/
def PodBucket : GoString := "pod"

/-- The struct `NetworkStorage`. -/
structure NetworkStorage where
  IP : GoMap IPConfig
  Annotations : GoMap GoString
  Extradata : GoMap GoString
  Uid : GoString
  Netns_path : GoString
  PodName : GoString
  PodNamespace : GoString

/-- The zero value `NetworkStorage{}`. -/
def NetworkStorage.zero : NetworkStorage :=
  { IP := none, Annotations := none, Extradata := none, Uid := "", Netns_path := "",
    PodName := "", PodNamespace := "" }

/-- The package `encoding/json` on `NetworkStorage`, over a type `Bytes` of stored
values. -/
structure JsonCodec (Bytes : Type) where
  /-- The function `json.Marshal` on a `NetworkStorage`. -/
  marshal : NetworkStorage → Except GoError Bytes
  /-- What `json.Unmarshal(v, data)` leaves in a zero-valued `data`, and its error. -/
  unmarshal : Bytes → NetworkStorage × Option GoError
  /-- The length `len(v)` of a stored value. -/
  size : Bytes → Nat

/-- A bolt bucket: the value stored under each key. -/
def Bucket (Bytes : Type) : Type := GoString → Option Bytes

/-- A bolt database: the bucket stored under each bucket name. -/
structure DB (Bytes : Type) where
  bucket : GoString → Option (Bucket Bytes)

/-- Bolt: the constant `MaxKeySize`. -/
def MaxKeySize : Nat := 32768

/-- Bolt: the constant `MaxValueSize`. -/
def MaxValueSize : Nat := 2 ^ 31 - 2

/-- Bolt: `tx.CreateBucketIfNotExists(name)` in a writable transaction: on success
the database with the bucket present and the bucket; on error the bucket is nil. -/
def createBucketIfNotExists {Bytes : Type} (db : DB Bytes) (name : GoString) :
    Except GoError (DB Bytes × Bucket Bytes) :=
  if name = "" then .error (GoError.other "bucket name required")
  else
    match db.bucket name with
    | some b => .ok (db, b)
    | none =>
      .ok ({ bucket := fun n => if n = name then some (fun _ => none) else db.bucket n },
        fun _ => none)

/-- Bolt: the database in which bucket `name` is `b`. -/
def setBucket {Bytes : Type} (db : DB Bytes) (name : GoString) (b : Bucket Bytes) : DB Bytes :=
  { bucket := fun n => if n = name then some b else db.bucket n }

/-- Bolt: `b.Put(key, value)` in a writable transaction. -/
def bucketPut {Bytes : Type} (codec : JsonCodec Bytes) (b : Bucket Bytes) (key : GoString)
    (value : Bytes) : Bucket Bytes × Option GoError :=
  if key.len = 0 then (b, some (GoError.other "key required"))
  else if key.len > MaxKeySize then (b, some (GoError.other "key too large"))
  else if codec.size value > MaxValueSize then (b, some (GoError.other "value too large"))
  else (fun k => if k = key then some value else b k, none)

/-- The calls the service makes to the outside world. -/
inductive Event where
  /-- One `db.Update` transaction. -/
  | dbUpdate
  /-- One `db.View` transaction. -/
  | dbView
  /-- One call of the backend setup `SetupSerially(ctx, id, netns, opts...)`. -/
  | cniSetup (id netns : GoString) (opts : List NamespaceOpt)
  /-- One call of the backend teardown `Remove(ctx, id, netns, opts...)`. -/
  | cniRemove (id netns : GoString) (opts : List NamespaceOpt)
  /-- One call of `Closed()` on the handle `netns.LoadNetNS(path)`. -/
  | nsClosed (path : GoString)
  /-- One call of `Remove()` on the handle `netns.LoadNetNS(path)`. -/
  | nsRemove (path : GoString)

/-- The state the service works on: the database of the Record Store and the calls
made so far. -/
structure World (Bytes : Type) where
  db : DB Bytes
  trace : List Event

/-- The world after a call is made. -/
def World.log {Bytes : Type} (w : World Bytes) (e : Event) : World Bytes :=
  { w with trace := w.trace ++ [e] }

/-- Everything outside `store.go`, `utils.go` and `kni.go`. The results of the
stateful collaborators may depend on the calls made so far. -/
structure Env (Bytes : Type) where
  lib : TranslatorLib
  codec : JsonCodec Bytes
  /-- The error, if any, with which the commit of a `db.Update` fails. -/
  commitFault : List Event → Option GoError
  /-- The result of the backend `SetupSerially`. -/
  setupSerially : List Event → GoString → GoString → List NamespaceOpt → Except GoError CniResult
  /-- The error, if any, of `json.Marshal(res)` on a CNI result. -/
  marshalResult : CniResult → Option GoError
  /-- The result of the backend `Remove`. -/
  cniRemove : List Event → GoString → GoString → List NamespaceOpt → Option GoError
  /-- The result of `Closed()` on the namespace handle of a path. -/
  nsClosed : List Event → GoString → Except GoError Bool
  /-- The result of `Remove()` on the namespace handle of a path. -/
  nsRemove : List Event → GoString → Option GoError

/-- Bolt: `db.Update(fn)`. The changes of `fn` are kept only if `fn` returns nil and
the commit succeeds. -/
def dbUpdate {Bytes : Type} (env : Env Bytes) (w : World Bytes)
    (fn : DB Bytes → DB Bytes × Option GoError) : World Bytes × Option GoError :=
  match fn w.db with
  | (_, some e) => (w.log Event.dbUpdate, some e)
  | (db2, none) =>
    match env.commitFault w.trace with
    | some e => (w.log Event.dbUpdate, some e)
    | none => ({ db := db2, trace := w.trace ++ [Event.dbUpdate] }, none)

/-- The method `Store.Save`. A nil bucket is reported before the error is looked at. -/
def Store.Save {Bytes : Type} (env : Env Bytes) (w : World Bytes) (id : GoString)
    (netstore : NetworkStorage) : World Bytes × Option GoError :=
  dbUpdate env w (fun tx =>
    match createBucketIfNotExists tx PodBucket with
    | .error _ => (tx, some (GoError.other "bucket does not exist"))
    | .ok (tx, b) =>
      match env.codec.marshal netstore with
      | .error err => (tx, some err)
      | .ok js =>
        match bucketPut env.codec b id js with
        | (b2, err) => (setBucket tx PodBucket b2, err))

/-- The function passed to `db.View` in `Store.Query`: the contents of `data`
afterwards, and the error. -/
def queryView {Bytes : Type} (codec : JsonCodec Bytes) (db : DB Bytes) (id : GoString) :
    NetworkStorage × Option GoError :=
  match db.bucket PodBucket with
  | none => (NetworkStorage.zero, some (GoError.other "bucket not created"))
  | some b =>
    match b id with
    | none => (NetworkStorage.zero, none)
    | some v =>
      match codec.unmarshal v with
      | (data, some err) => (data, some err)
      | (data, none) => (data, none)

/-- The method `Store.Query`: the returned record, the error, and the world. -/
def Store.Query {Bytes : Type} (env : Env Bytes) (w : World Bytes) (id : GoString) :
    (NetworkStorage × Option GoError) × World Bytes :=
  (queryView env.codec w.db id, w.log Event.dbView)

/-! ## pkg/cni/utils.go -/

/-- The function `toCNILabels`. -/
def toCNILabels (id name namespace_ uid : GoString) : GoMap GoString :=
  some (fun k =>
    if k = "K8S_POD_NAMESPACE" then some namespace_
    else if k = "K8S_POD_NAME" then some name
    else if k = "K8S_POD_INFRA_CONTAINER_ID" then some id
    else if k = "K8S_POD_UID" then some uid
    else if k = "IgnoreUnknown" then some "1"
    else none)

/-- The value `minRsrc.Value()`, `minRsrc` being `resource.MustParse("1k")`. -/
def minRsrcValue : Int := 1000

/-- The value `maxRsrc.Value()`, `maxRsrc` being `resource.MustParse("1P")`. -/
def maxRsrcValue : Int := 10 ^ 15

/-- The error of `validateBandwidthIsReasonable` for a value below `minRsrc`. -/
def errTooSmall : GoError := GoError.other "resource is unreasonably small (< 1kbit)"

/-- The error of `validateBandwidthIsReasonable` for a value above `maxRsrc`. -/
def errTooLarge : GoError := GoError.other "resource is unreasonably large (> 1Pbit)"

/-- The function `validateBandwidthIsReasonable`. -/
def validateBandwidthIsReasonable (rsrc : Quantity) : Option GoError :=
  if rsrc.value < minRsrcValue then some errTooSmall
  else if rsrc.value > maxRsrcValue then some errTooLarge
  else none

/-- The function `ExtractPodBandwidthResources`: `(ingress, egress, err)`. -/
def ExtractPodBandwidthResources (lib : TranslatorLib) (podAnnotations : GoMap GoString) :
    Option Quantity × Option Quantity × Option GoError :=
  match podAnnotations with
  | none => (none, none, none)
  | some _ =>
    let ingressStep : Except GoError (Option Quantity) :=
      match mapGet podAnnotations "kubernetes.io/ingress-bandwidth" with
      | some str =>
        match lib.parseQuantity str with
        | .error err => .error err
        | .ok ingressValue =>
          match validateBandwidthIsReasonable ingressValue with
          | some err => .error err
          | none => .ok (some ingressValue)
      | none => .ok none
    match ingressStep with
    | .error err => (none, none, some err)
    | .ok ingress =>
      match mapGet podAnnotations "kubernetes.io/egress-bandwidth" with
      | some str =>
        match lib.parseQuantity str with
        | .error err => (none, none, some err)
        | .ok egressValue =>
          match validateBandwidthIsReasonable egressValue with
          | some err => (none, none, some err)
          | none => (ingress, some egressValue, none)
      | none => (ingress, none, none)

/-- The constant `math.MaxUint32`. -/
def MaxUint32 : Nat := 4294967295

/-- The conversion `uint64(v)` of an `int64`. -/
def toUint64 (v : Int) : Nat := (v % 2 ^ 64).toNat

/-- The function `toCNIBandWidth`. It calls `ExtractPodBandwidthResources` of the
containerd package `bandwidth`, of which the function of that name in `utils.go`
is a copy. -/
def toCNIBandWidth (lib : TranslatorLib) (annotations : GoMap GoString) :
    Except GoError (Option BandWidth) :=
  match ExtractPodBandwidthResources lib annotations with
  | (_, _, some err) => .error (GoError.wrap "reading pod bandwidth annotations: " err)
  | (none, none, none) => .ok none
  | (ingress, egress, none) =>
    let bandWidth : BandWidth :=
      { IngressRate := 0, IngressBurst := 0, EgressRate := 0, EgressBurst := 0 }
    let bandWidth :=
      match ingress with
      | some q => { bandWidth with IngressRate := toUint64 q.value, IngressBurst := MaxUint32 }
      | none => bandWidth
    let bandWidth :=
      match egress with
      | some q => { bandWidth with EgressRate := toUint64 q.value, EgressBurst := MaxUint32 }
      | none => bandWidth
    .ok (some bandWidth)

/-- The loop of `toCNIPortMappings`; `portMappings` is the slice built so far. -/
def toCNIPortMappingsLoop (lib : TranslatorLib) :
    List PortMapping → List CniPortMapping → List CniPortMapping
  | [], portMappings => portMappings
  | mapping :: rest, portMappings =>
    if mapping.HostPort ≤ 0 then toCNIPortMappingsLoop lib rest portMappings
    else
      toCNIPortMappingsLoop lib rest (portMappings ++
        [{ HostPort := mapping.HostPort
           ContainerPort := mapping.ContainerPort
           Protocol := lib.toLower (lib.protocolString mapping.Protocol)
           HostIP := mapping.HostIp }])

/-- The function `toCNIPortMappings`. -/
def toCNIPortMappings (lib : TranslatorLib) (criPortMappings : List PortMapping) :
    List CniPortMapping :=
  toCNIPortMappingsLoop lib criPortMappings []

/-- The function `toCNIDNS`. -/
def toCNIDNS (dns : Option DNSConfig) : Option DNS :=
  match dns with
  | none => none
  | some d => some { Servers := d.Servers, Searches := d.Searches, Options := d.Options }

/-- The function `cniNamespaceOpts`. -/
def cniNamespaceOpts (lib : TranslatorLib) (id name namespace_ uid : GoString)
    (_labels annotations extra : GoMap GoString) (ports : List PortMapping)
    (dnsconfig : Option DNSConfig) : Except GoError (List NamespaceOpt) :=
  let opts : List NamespaceOpt :=
    [NamespaceOpt.labels (toCNILabels id name namespace_ uid),
     NamespaceOpt.capability "io.kubernetes.cri.pod-annotations" annotations]
  let portMappings := toCNIPortMappings lib ports
  let opts :=
    if portMappings.length > 0 then opts ++ [NamespaceOpt.capabilityPortMap portMappings]
    else opts
  match toCNIBandWidth lib annotations with
  | .error err => .error err
  | .ok bandWidth =>
    let opts :=
      match bandWidth with
      | some bw => opts ++ [NamespaceOpt.capabilityBandWidth bw]
      | none => opts
    let opts :=
      match toCNIDNS dnsconfig with
      | some dns => opts ++ [NamespaceOpt.capabilityDNS dns]
      | none => opts
    let cgroup := mapIndex extra "cgroupPath"
    let opts :=
      if cgroup ≠ "" then opts ++ [NamespaceOpt.capabilityCgroupPath cgroup] else opts
    .ok opts

/-! ## pkg/cni/kni.go -/

/-- The message `beta.AttachInterfaceRequest`. -/
structure AttachInterfaceRequest where
  Id : GoString
  Name : GoString
  Namespace : GoString
  Labels : GoMap GoString
  Annotations : GoMap GoString
  Extradata : GoMap GoString
  PortMappings : List PortMapping
  DnsConfig : Option DNSConfig

/-- The message `beta.QueryPodNetworkRequest`. -/
structure QueryPodNetworkRequest where
  Id : GoString

/-- The messages `beta.AttachInterfaceResponse` and `beta.QueryPodNetworkResponse`:
both hold the map `Ipconfigs`. -/
structure IpconfigsResponse where
  Ipconfigs : GoMap IPConfig

/-- The inner loop of `AttachInterface` over `outv.IPConfigs`; `ip` is `data.Ip`. -/
def appendIPs : List CniIPConfig → List GoString → List GoString
  | [], ip => ip
  | v :: rest, ip => appendIPs rest (ip ++ [v.IP])

/-- The outer loop of `AttachInterface` over `res.Interfaces`; `ip` is `store.IP`. -/
def fillIP : List (GoString × CniConfig) → (GoString → Option IPConfig) → (GoString → Option IPConfig)
  | [], ip => ip
  | (outk, outv) :: rest, ip =>
    fillIP rest (mapSet ip outk { Mac := outv.Mac, Ip := appendIPs outv.IPConfigs [] })

/-- The record `store` that `AttachInterface` builds from the request, the namespace
path and the CNI result. -/
def attachRecord (req : AttachInterfaceRequest) (netns : GoString) (res : CniResult) :
    NetworkStorage :=
  { IP := some (fillIP res.Interfaces mapMake)
    Annotations := req.Annotations
    Extradata := req.Extradata
    Uid := ""
    PodName := req.Name
    PodNamespace := req.Namespace
    Netns_path := netns }

/-- The error of `AttachInterface` for a request without a namespace path. -/
def errNoNetns (id : GoString) : GoError :=
  GoError.other ("pod annotation id: " ++ id ++ " has no netns")

/-- The method `KNICNIService.AttachInterface`. -/
def AttachInterface {Bytes : Type} (env : Env Bytes) (w : World Bytes)
    (req : AttachInterfaceRequest) : Except GoError IpconfigsResponse × World Bytes :=
  match cniNamespaceOpts env.lib req.Id req.Name req.Namespace "" req.Labels
      req.Annotations req.Extradata req.PortMappings req.DnsConfig with
  | .error err => (.error err, w)
  | .ok opts =>
    match mapGet req.Extradata "netns" with
    | none => (.error (errNoNetns req.Id), w)
    | some _ =>
      let netns := mapIndex req.Extradata "netns"
      match env.setupSerially w.trace req.Id netns opts with
      | .error err => (.error err, w.log (Event.cniSetup req.Id netns opts))
      | .ok res =>
        match env.marshalResult res with
        | some err => (.error err, w.log (Event.cniSetup req.Id netns opts))
        | none =>
          let store := attachRecord req netns res
          match Store.Save env (w.log (Event.cniSetup req.Id netns opts)) req.Id store with
          | (w2, some err) => (.error err, w2)
          | (w2, none) => (.ok { Ipconfigs := store.IP }, w2)

/-- The method `KNICNIService.QueryPodNetwork`. The nil test on `data.IP` comes
before the test on `err`. -/
def QueryPodNetwork {Bytes : Type} (env : Env Bytes) (w : World Bytes)
    (req : QueryPodNetworkRequest) : Except GoError IpconfigsResponse × World Bytes :=
  match Store.Query env w req.Id with
  | ((data, err), w1) =>
    match data.IP with
    | none => (.ok { Ipconfigs := none }, w1)
    | some ip =>
      match err with
      | some e => (.error e, w1)
      | none => (.ok { Ipconfigs := some ip }, w1)

/-! ## Concrete libraries and worlds, for evaluating the code -/

/-- The number written by decimal digits, `acc` being the number read so far; none
when a byte is not a digit. -/
def digitsValue : List UInt8 → Nat → Option Nat
  | [], acc => some acc
  | c :: rest, acc =>
    if c.toNat < 48 then none
    else if c.toNat > 57 then none
    else digitsValue rest (acc * 10 + (c.toNat - 48))

/-- The function `resource.ParseQuantity` on the non-empty strings of decimal digits:
the quantity of which `Value()` is the number written, converted to `int64` (a number
of 2^63 or more wraps). Every other string is outside this sample, which gives it an
error. -/
def sampleParseQuantity (s : GoString) : Except GoError Quantity :=
  match s.bytes with
  | [] => .error (GoError.other "quantities must match the regular expression")
  | d :: ds =>
    match digitsValue (d :: ds) 0 with
    | none => .error (GoError.other "quantities must match the regular expression")
    | some n => .ok (Quantity.ofInt n)

/-- The names of the protocol enum as in the CRI API, a number without a name being
printed in decimal. -/
def sampleProtocolString (p : Int) : GoString :=
  if p = 0 then "TCP" else if p = 1 then "UDP" else if p = 2 then "SCTP"
  else GoString.ofText (toString p)

/-- The function `strings.ToLower` on strings of ASCII bytes: the upper-case letters
are lower-cased. -/
def sampleToLower (s : GoString) : GoString :=
  { bytes := s.bytes.map (fun b => if 65 ≤ b.toNat ∧ b.toNat ≤ 90 then b + 32 else b) }

/-- A library instance for evaluating the translator. -/
def sampleLib : TranslatorLib :=
  { parseQuantity := sampleParseQuantity
    protocolString := sampleProtocolString
    toLower := sampleToLower }

/-- The annotation key of the ingress bandwidth. -/
def ingressKey : GoString := "kubernetes.io/ingress-bandwidth"

/-- Annotations with an ingress bandwidth of 500 only. -/
def annSmall : GoMap GoString :=
  some (fun k => if k = ingressKey then some "500" else none)

/-- The value stored under `id` in the pod bucket, if the bucket and the key exist. -/
def stored {Bytes : Type} (db : DB Bytes) (id : GoString) : Option Bytes :=
  match db.bucket PodBucket with
  | none => none
  | some b => b id

/-- The codec returns the record `r` from what it serializes `r` to, with no error. -/
def RoundTrips {Bytes : Type} (codec : JsonCodec Bytes) (r : NetworkStorage) : Prop :=
  ∀ js, codec.marshal r = .ok js → codec.unmarshal js = (r, none)

/-- A CNI result with one interface and two addresses. -/
def sampleResult : CniResult :=
  { Interfaces :=
      [("eth0", { IPConfigs := [{ IP := "10.1.0.5" }, { IP := "fd00::5" }]
                  Mac := "aa:bb:cc:dd:ee:ff"
                  Sandbox := "/run/netns/kni-default-pod1" })] }

/-- An environment in which every collaborator succeeds; stored values are the
records themselves. -/
def sampleEnv : Env NetworkStorage :=
  { lib := sampleLib
    codec := { marshal := fun r => .ok r, unmarshal := fun v => (v, none), size := fun _ => 0 }
    commitFault := fun _ => none
    setupSerially := fun _ _ _ _ => .ok sampleResult
    marshalResult := fun _ => none
    cniRemove := fun _ _ _ _ => none
    nsClosed := fun _ _ => .ok false
    nsRemove := fun _ _ => none }

/-- The environment `sampleEnv` with a codec that cannot deserialize what is stored. -/
def sampleEnvCorrupt : Env NetworkStorage :=
  { sampleEnv with
    codec :=
      { marshal := fun r => .ok r
        unmarshal := fun _ => (NetworkStorage.zero, some (GoError.other "invalid character"))
        size := fun _ => 0 } }

/-- The world after `New`: an empty pod bucket, no call made. -/
def worldEmpty : World NetworkStorage :=
  { db := { bucket := fun n => if n = PodBucket then some (fun _ => none) else none }
    trace := [] }

/-- A world whose database has no pod bucket. -/
def worldNoBucket : World NetworkStorage :=
  { db := { bucket := fun _ => none }, trace := [] }

/-- A record, for evaluating the store. -/
def sampleRecord : NetworkStorage :=
  { IP := some (fun k => if k = "eth0" then some { Ip := ["10.1.0.5"], Mac := "aa:bb" } else none)
    Annotations := none
    Extradata := some (fun k => if k = "netns" then some "/run/netns/kni-default-pod1" else none)
    Uid := "u1"
    Netns_path := "/run/netns/kni-default-pod1"
    PodName := "pod1"
    PodNamespace := "default" }

/-- A world in which a record is stored under "abc". -/
def worldOne : World NetworkStorage :=
  { db := { bucket := fun n =>
      if n = PodBucket then some (fun k => if k = "abc" then some sampleRecord else none)
      else none }
    trace := [] }

/-- An attach request without a namespace path and with an ingress bandwidth of 500. -/
def reqNoNetnsSmall : AttachInterfaceRequest :=
  { Id := "abc", Name := "pod1", Namespace := "default", Labels := none
    Annotations := annSmall, Extradata := none, PortMappings := [], DnsConfig := none }

/-- An attach request without a namespace path and without annotations. -/
def reqNoNetns : AttachInterfaceRequest :=
  { Id := "abc", Name := "pod1", Namespace := "default", Labels := none
    Annotations := none
    Extradata := some (fun k => if k = "cgroupPath" then some "/sys/fs/cgroup/p" else none)
    PortMappings := [], DnsConfig := none }

/-- Annotations with an ingress bandwidth of 2^64 + 1000 only. -/
def annWrapOk : GoMap GoString :=
  some (fun k => if k = ingressKey then some "18446744073709552616" else none)

/-- Whether a byte is a UTF-8 continuation byte. -/
def isCont (b : UInt8) : Bool :=
  decide (0x80 ≤ b.toNat) && decide (b.toNat ≤ 0xBF)

/-- The length of the UTF-8 encoding of a rune at the head of the bytes, as
`utf8.DecodeRune` accepts it; 0 when the head is not such an encoding. -/
def validRuneLen : List UInt8 → Nat
  | [] => 0
  | b0 :: rest =>
    if b0.toNat < 0x80 then 1
    else if b0.toNat < 0xC2 then 0
    else if b0.toNat < 0xE0 then
      match rest with
      | b1 :: _ => if isCont b1 then 2 else 0
      | _ => 0
    else if b0.toNat < 0xF0 then
      match rest with
      | b1 :: b2 :: _ =>
        if decide ((if b0.toNat = 0xE0 then 0xA0 else 0x80) ≤ b1.toNat) &&
            decide (b1.toNat ≤ (if b0.toNat = 0xED then 0x9F else 0xBF)) && isCont b2
        then 3 else 0
      | _ => 0
    else if b0.toNat < 0xF5 then
      match rest with
      | b1 :: b2 :: b3 :: _ =>
        if decide ((if b0.toNat = 0xF0 then 0x90 else 0x80) ≤ b1.toNat) &&
            decide (b1.toNat ≤ (if b0.toNat = 0xF4 then 0x8F else 0xBF)) &&
            isCont b2 && isCont b3
        then 4 else 0
      | _ => 0
    else 0

/-- The bytes that `json.Unmarshal` returns for a string that `json.Marshal` has
written: every encoded rune is kept, and every byte that does not start one is
replaced by the encoding EF BF BD of U+FFFD. `keep` is the number of bytes still to
copy of the rune being read. -/
def jsonBytes : List UInt8 → Nat → List UInt8
  | [], _ => []
  | b :: rest, keep + 1 => b :: jsonBytes rest keep
  | b :: rest, 0 =>
    match validRuneLen (b :: rest) with
    | 0 => 0xEF :: 0xBF :: 0xBD :: jsonBytes rest 0
    | n + 1 => b :: jsonBytes rest n

/-- The string that comes back from `encoding/json` for a string. -/
def jsonString (s : GoString) : GoString :=
  { bytes := jsonBytes s.bytes 0 }

/-- The record that comes back from `encoding/json` for a record whose map keys are
valid UTF-8: every string value is replaced by the one that comes back for it. -/
def jsonRecord (r : NetworkStorage) : NetworkStorage :=
  { IP := r.IP.map (fun f k => (f k).map (fun c =>
      { Ip := c.Ip.map jsonString, Mac := jsonString c.Mac }))
    Annotations := r.Annotations.map (fun f k => (f k).map jsonString)
    Extradata := r.Extradata.map (fun f k => (f k).map jsonString)
    Uid := jsonString r.Uid
    Netns_path := jsonString r.Netns_path
    PodName := jsonString r.PodName
    PodNamespace := jsonString r.PodNamespace }

/-- The environment `sampleEnv` with a codec that loses what `encoding/json` loses:
a stored value is the record that is read back from it. -/
def sampleEnvJson : Env NetworkStorage :=
  { sampleEnv with
    codec :=
      { marshal := fun r => .ok (jsonRecord r)
        unmarshal := fun v => (v, none)
        size := fun _ => 0 } }

/-- A record whose pod name is the single byte FF, which is not valid UTF-8. -/
def recordInvalidName : NetworkStorage :=
  { NetworkStorage.zero with PodName := { bytes := [0xFF] } }

/-- A second record, for evaluating the store. -/
def sampleRecord2 : NetworkStorage :=
  { IP := some (fun k =>
      if k = "eth0" then some { Ip := ["10.1.0.9", "fd00::9"], Mac := "aa:cc" } else none)
    Annotations := some (fun k => if k = "team" then some "réseau" else none)
    Extradata := some (fun k => if k = "netns" then some "/run/netns/kni-default-pod2" else none)
    Uid := "u2"
    Netns_path := "/run/netns/kni-default-pod2"
    PodName := "pod2"
    PodNamespace := "default" }

/-- A world in which a record is stored under "abc" and under "def". -/
def worldTwo : World NetworkStorage :=
  { db := { bucket := fun n =>
      if n = PodBucket then
        some (fun k =>
          if k = "abc" then some sampleRecord
          else if k = "def" then some sampleRecord else none)
      else none }
    trace := [] }

/-! # Theorems -/

/-! ## The unmount retry loop -/

theorem busyRounds_succ (n : Nat) :
    busyRounds (n + 1) = [MountEvent.syscall, MountEvent.sleep 50] ++ busyRounds n := by
  simp [busyRounds, List.replicate_succ]

theorem syscallCount_busyRounds (n : Nat) : syscallCount (busyRounds n) = n := by
  induction n with
  | zero => simp [busyRounds, syscallCount]
  | succ n ih =>
    rw [busyRounds_succ]
    simp only [syscallCount] at ih ⊢
    rw [List.count_append, ih]
    simp [List.count_cons]
    omega

/-- After `m` busy attempts the loop is where it would be had it started `m` rounds
later, with `m` busy rounds added to the trace. -/
theorem unmountLoop_busy (env : MountEnv) (target : GoString) (flags : Int) (m : Nat) :
    ∀ (left i : Nat) (tr : List MountEvent),
      (∀ j, i ≤ j → j < i + m → env.sysUnmount j target flags = some EBUSY) →
      unmountLoop env target flags (left + m) i tr =
        unmountLoop env target flags left (i + m) (tr ++ busyRounds m) := by
  induction m with
  | zero => intro left i tr _; simp [busyRounds]
  | succ m ih =>
    intro left i tr h
    have h0 : env.sysUnmount i target flags = some EBUSY := h i (Nat.le_refl _) (by omega)
    have e1 : left + (m + 1) = (left + m) + 1 := by omega
    rw [e1, unmountLoop, h0]
    simp only [if_true]
    rw [ih left (i + 1) _ (fun j hj1 hj2 => h j (by omega) (by omega))]
    rw [busyRounds_succ]
    have e2 : i + 1 + m = i + (m + 1) := by omega
    rw [e2]
    simp

/-- When the target is not handled by a FUSE helper, `unmount` is the syscall loop
started after the helper events. -/
theorem unmount_eq_loop (env : MountEnv) (target : GoString) (flags : Int)
    (hF : isFUSE env target = false ∨ (unmountFUSE env target).1 ≠ none) :
    unmount env target flags = unmountLoop env target flags 50 0 (helperEvents env target) := by
  unfold unmount helperEvents
  by_cases hf : isFUSE env target = true
  · rcases hF with h | h
    · rw [h] at hf; exact absurd hf (by decide)
    · simp only [hf, if_true]
      rcases hu : unmountFUSE env target with ⟨r, tr⟩
      rw [hu] at h
      cases r with
      | none => exact absurd rfl h
      | some e => rfl
  · simp [hf]

/-- The helper runs contain no unmount syscall. -/
theorem syscallCount_helperEvents (env : MountEnv) (target : GoString) :
    syscallCount (helperEvents env target) = 0 := by
  unfold helperEvents syscallCount unmountFUSE
  by_cases hf : isFUSE env target = true
  · simp only [hf, if_true, unmountFUSELoop]
    cases env.runHelper "fusermount3" target with
    | none => simp
    | some e =>
      cases env.runHelper "fusermount" target with
      | none => simp
      | some e2 => simp
  · simp [hf]

theorem syscallCount_attempts (env : MountEnv) (target : GoString) (n : Nat) :
    syscallCount (helperEvents env target ++ busyRounds n ++ [MountEvent.syscall]) = n + 1 := by
  have h1 := syscallCount_helperEvents env target
  have h2 := syscallCount_busyRounds n
  simp only [syscallCount] at h1 h2 ⊢
  rw [List.count_append, List.count_append, h1, h2]
  simp

/-- Claim C1: busy-retry bound of `unmount`, for a target that is not on a FUSE
filesystem or whose FUSE helper failed. (a) If every attempt reports EBUSY, the
trace is the helper events followed by exactly 50 rounds of one syscall and one
50 ms sleep, 50 syscalls in all, and the result is the error wrapping EBUSY. (b) If
attempts 1..N-1 report EBUSY and attempt N succeeds, 1 ≤ N ≤ 50, the result is success
after exactly N syscalls. (c) If attempts 1..k-1 report EBUSY and attempt k ≤ 50
reports another errno, that errno is returned after exactly k syscalls. -/
theorem unmount_busy_retry_bound (env : MountEnv) (target : GoString) (flags : Int)
    (hF : isFUSE env target = false ∨ (unmountFUSE env target).1 ≠ none) :
    ((∀ j, env.sysUnmount j target flags = some EBUSY) →
        unmount env target flags =
          (some (GoError.wrap ("failed to unmount target " ++ target ++ ": ")
            (GoError.errno EBUSY)), helperEvents env target ++ busyRounds 50) ∧
        syscallCount (unmount env target flags).2 = 50) ∧
    (∀ N, 1 ≤ N → N ≤ 50 →
        (∀ j, j < N - 1 → env.sysUnmount j target flags = some EBUSY) →
        env.sysUnmount (N - 1) target flags = none →
        unmount env target flags =
          (none, helperEvents env target ++ busyRounds (N - 1) ++ [MountEvent.syscall]) ∧
        syscallCount (unmount env target flags).2 = N) ∧
    (∀ k e, 1 ≤ k → k ≤ 50 → e ≠ EBUSY →
        (∀ j, j < k - 1 → env.sysUnmount j target flags = some EBUSY) →
        env.sysUnmount (k - 1) target flags = some e →
        unmount env target flags =
          (some (GoError.errno e),
            helperEvents env target ++ busyRounds (k - 1) ++ [MountEvent.syscall]) ∧
        syscallCount (unmount env target flags).2 = k) := by
  refine ⟨?_, ?_, ?_⟩
  · intro h
    have hEq : unmount env target flags =
        (some (GoError.wrap ("failed to unmount target " ++ target ++ ": ")
          (GoError.errno EBUSY)), helperEvents env target ++ busyRounds 50) := by
      rw [unmount_eq_loop env target flags hF]
      have := unmountLoop_busy env target flags 50 0 0 (helperEvents env target)
        (fun j _ _ => h j)
      simp only [Nat.zero_add] at this
      rw [this]
      rfl
    refine ⟨hEq, ?_⟩
    rw [hEq]
    have h1 := syscallCount_helperEvents env target
    have h2 := syscallCount_busyRounds 50
    simp only [syscallCount] at h1 h2 ⊢
    rw [List.count_append, h1, h2]
  · intro N h1 h50 hb hs
    have hEq : unmount env target flags =
        (none, helperEvents env target ++ busyRounds (N - 1) ++ [MountEvent.syscall]) := by
      rw [unmount_eq_loop env target flags hF]
      have := unmountLoop_busy env target flags (N - 1) (50 - N + 1) 0 (helperEvents env target)
        (fun j _ hj => hb j (by omega))
      have e : 50 - N + 1 + (N - 1) = 50 := by omega
      rw [e] at this
      rw [this]
      simp only [Nat.zero_add]
      rw [unmountLoop, hs]
    refine ⟨hEq, ?_⟩
    rw [hEq, syscallCount_attempts]
    omega
  · intro k e h1 h50 hne hb hs
    have hEq : unmount env target flags = (some (GoError.errno e),
        helperEvents env target ++ busyRounds (k - 1) ++ [MountEvent.syscall]) := by
      rw [unmount_eq_loop env target flags hF]
      have := unmountLoop_busy env target flags (k - 1) (50 - k + 1) 0 (helperEvents env target)
        (fun j _ hj => hb j (by omega))
      have e' : 50 - k + 1 + (k - 1) = 50 := by omega
      rw [e'] at this
      rw [this]
      simp only [Nat.zero_add]
      rw [unmountLoop, hs]
      simp [hne]
    refine ⟨hEq, ?_⟩
    rw [hEq, syscallCount_attempts]
    omega

/-- Witness of C1 at three operating systems: always busy (50 attempts, error),
success at the third attempt after failed FUSE helpers, errno 13 at the second. -/
theorem unmount_busy_retry_bound_witness :
    syscallCount (unmount envAlwaysBusy "/run/netns/a" 0).2 = 50 ∧
    (unmount envThird "/run/netns/a" 0).1 = none ∧
    syscallCount (unmount envThird "/run/netns/a" 0).2 = 3 ∧
    (unmount (envSecondFails 13) "/run/netns/a" 0).1 = some (GoError.errno 13) ∧
    syscallCount (unmount (envSecondFails 13) "/run/netns/a" 0).2 = 2 := by
  have hA := (unmount_busy_retry_bound envAlwaysBusy "/run/netns/a" 0
    (Or.inl (by decide))).1 (fun _ => rfl)
  have hB := (unmount_busy_retry_bound envThird "/run/netns/a" 0
    (Or.inr (by decide))).2.1 3 (by decide) (by decide)
    (fun j hj => by
      have : j < 2 := hj
      simp [envThird, this])
    (by simp [envThird])
  have hC := (unmount_busy_retry_bound (envSecondFails 13) "/run/netns/a" 0
    (Or.inl (by decide))).2.2 2 13 (by decide) (by decide) (by decide)
    (fun j hj => by
      have : j = 0 := by omega
      simp [envSecondFails, this])
    (by simp [envSecondFails])
  exact ⟨hA.2, by rw [hB.1], hB.2, by rw [hC.1], hC.2⟩

/-! ## The translator -/

/-- The loop of `toCNIPortMappings` appends, in order, the converted entries with a
positive host port. -/
theorem toCNIPortMappingsLoop_eq (lib : TranslatorLib) (ps : List PortMapping) :
    ∀ acc : List CniPortMapping,
      toCNIPortMappingsLoop lib ps acc =
        acc ++ (ps.filter (fun m => decide (0 < m.HostPort))).map (fun m =>
          { HostPort := m.HostPort, ContainerPort := m.ContainerPort,
            Protocol := lib.toLower (lib.protocolString m.Protocol), HostIP := m.HostIp }) := by
  induction ps with
  | nil => intro acc; simp [toCNIPortMappingsLoop]
  | cons m rest ih =>
    intro acc
    by_cases h : m.HostPort ≤ 0
    · have h2 : ¬ (0 < m.HostPort) := by omega
      simp [toCNIPortMappingsLoop, h, h2, ih]
    · have h2 : 0 < m.HostPort := by omega
      simp [toCNIPortMappingsLoop, h, h2, ih]

/-- Claim C2: for every list of port mappings, `toCNIPortMappings` returns exactly
the entries whose host port is positive, in their original order, each with host
port, container port and host IP unchanged and the protocol name lower-cased; no
entry of the result has a host port ≤ 0, and the length of the result is the number
of inputs with a positive host port. -/
theorem toCNIPortMappings_filter (lib : TranslatorLib) (ps : List PortMapping) :
    toCNIPortMappings lib ps =
      (ps.filter (fun m => decide (0 < m.HostPort))).map (fun m =>
        { HostPort := m.HostPort, ContainerPort := m.ContainerPort,
          Protocol := lib.toLower (lib.protocolString m.Protocol), HostIP := m.HostIp }) ∧
    (∀ c ∈ toCNIPortMappings lib ps, 0 < c.HostPort) ∧
    (toCNIPortMappings lib ps).length = ps.countP (fun m => decide (0 < m.HostPort)) := by
  have hEq := toCNIPortMappingsLoop_eq lib ps []
  simp only [List.nil_append] at hEq
  refine ⟨hEq, ?_, ?_⟩
  · intro c hc
    unfold toCNIPortMappings at hc
    rw [hEq] at hc
    simp only [List.mem_map, List.mem_filter, decide_eq_true_eq] at hc
    obtain ⟨m, ⟨_, hm⟩, rfl⟩ := hc
    exact hm
  · unfold toCNIPortMappings
    rw [hEq, List.length_map, List.countP_eq_length_filter]

/-- The scenario of the specification: host ports 0, -1, 8080 and 443 yield exactly
the entries of 8080 and 443, with lower-cased protocol names. -/
theorem toCNIPortMappings_example :
    toCNIPortMappings sampleLib
      [{ Protocol := 0, ContainerPort := 80, HostPort := 0, HostIp := "" },
       { Protocol := 1, ContainerPort := 53, HostPort := -1, HostIp := "" },
       { Protocol := 0, ContainerPort := 80, HostPort := 8080, HostIp := "10.0.0.1" },
       { Protocol := 1, ContainerPort := 4433, HostPort := 443, HostIp := "" }] =
      [{ HostPort := 8080, ContainerPort := 80, Protocol := "tcp", HostIP := "10.0.0.1" },
       { HostPort := 443, ContainerPort := 4433, Protocol := "udp", HostIP := "" }] := by
  decide


/-- The rate that `toCNIBandWidth` gives for an ingress annotation of 2^64 + 1000 is
1000, with the burst `math.MaxUint32`. -/
theorem toCNIBandWidth_wrapped :
    toCNIBandWidth sampleLib annWrapOk =
      .ok (some { IngressRate := 1000, IngressBurst := 4294967295, EgressRate := 0,
                  EgressBurst := 0 }) := by
  rfl

/-! ## The caller-facing Unmount -/

/-- Counterexample to C7 as stated: the unmount loop ends with ENOENT, the target
does not exist, and `Unmount` returns that error. -/
theorem Unmount_returns_ENOENT :
    (unmount (envFirstFails ENOENT) "/run/netns/gone" 0).1 = some (GoError.errno ENOENT) ∧
    (Unmount (envFirstFails ENOENT) "/run/netns/gone" 0).1 = some (GoError.errno ENOENT) := by
  decide

/-- Claim C7, amended: `Unmount` treats the error EINVAL of the unmount loop (the
target is not a mount point) as success, and a success as success; every other
error of the loop, ENOENT included, is returned to the caller; and the exhaustion of
the 50-attempt busy budget is returned as the error wrapping EBUSY. -/
theorem Unmount_ignores_EINVAL_only (env : MountEnv) (target : GoString) (flags : Int) :
    ((unmount env target flags).1 = some (GoError.errno EINVAL) →
      (Unmount env target flags).1 = none) ∧
    ((unmount env target flags).1 = none → (Unmount env target flags).1 = none) ∧
    (∀ err, err ≠ GoError.errno EINVAL → (unmount env target flags).1 = some err →
      (Unmount env target flags).1 = some err) ∧
    ((isFUSE env target = false ∨ (unmountFUSE env target).1 ≠ none) →
      (∀ j, env.sysUnmount j target flags = some EBUSY) →
      (Unmount env target flags).1 =
        some (GoError.wrap ("failed to unmount target " ++ target ++ ": ")
          (GoError.errno EBUSY)) ∧
      syscallCount (Unmount env target flags).2 = 50) := by
  have hTrace : (Unmount env target flags).2 = (unmount env target flags).2 := by
    unfold Unmount
    rcases unmount env target flags with ⟨r, tr⟩
    cases r with
    | none => rfl
    | some e => by_cases h : e = GoError.errno EINVAL <;> simp [h]
  have hOther : ∀ err, err ≠ GoError.errno EINVAL → (unmount env target flags).1 = some err →
      (Unmount env target flags).1 = some err := by
    intro err hne h
    unfold Unmount
    rcases hu : unmount env target flags with ⟨r, tr⟩
    rw [hu] at h
    simp only at h
    subst h
    simp [hne]
  refine ⟨?_, ?_, hOther, ?_⟩
  · intro h
    unfold Unmount
    rcases hu : unmount env target flags with ⟨r, tr⟩
    rw [hu] at h
    simp only at h
    subst h
    simp
  · intro h
    unfold Unmount
    rcases hu : unmount env target flags with ⟨r, tr⟩
    rw [hu] at h
    simp only at h
    subst h
    rfl
  · intro hF hB
    have hL : unmount env target flags = unmountLoop env target flags 50 0
        (helperEvents env target) := unmount_eq_loop env target flags hF
    have hR := unmountLoop_busy env target flags 50 0 0 (helperEvents env target)
      (fun j _ _ => hB j)
    simp only [Nat.zero_add] at hR
    have hEq : unmount env target flags =
        (some (GoError.wrap ("failed to unmount target " ++ target ++ ": ")
          (GoError.errno EBUSY)), helperEvents env target ++ busyRounds 50) := by
      rw [hL, hR]; rfl
    refine ⟨hOther _ (by simp) (by rw [hEq]), ?_⟩
    rw [hTrace, hEq]
    have h1 := syscallCount_helperEvents env target
    have h2 := syscallCount_busyRounds 50
    simp only [syscallCount] at h1 h2 ⊢
    rw [List.count_append, h1, h2]

/-- Witness of C7: EINVAL at the first attempt is success for the caller, ENOENT is
not, and an always busy target is an error after 50 attempts. -/
theorem Unmount_ignores_EINVAL_only_witness :
    (Unmount (envFirstFails EINVAL) "/run/netns/a" 0).1 = none ∧
    (Unmount (envFirstFails ENOENT) "/run/netns/a" 0).1 = some (GoError.errno ENOENT) ∧
    syscallCount (Unmount envAlwaysBusy "/run/netns/a" 0).2 = 50 :=
  ⟨(Unmount_ignores_EINVAL_only (envFirstFails EINVAL) "/run/netns/a" 0).1 (by decide),
   (Unmount_ignores_EINVAL_only (envFirstFails ENOENT) "/run/netns/a" 0).2.2.1 _ (by decide)
     (by decide),
   ((Unmount_ignores_EINVAL_only envAlwaysBusy "/run/netns/a" 0).2.2.2 (Or.inl (by decide))
     (fun _ => rfl)).2⟩


/-! ## The Record Store -/

/-- A successful `db.Update` installs the database that `fn` built. -/
theorem dbUpdate_ok {Bytes : Type} (env : Env Bytes) (w : World Bytes)
    (fn : DB Bytes → DB Bytes × Option GoError) (w2 : World Bytes)
    (h : dbUpdate env w fn = (w2, none)) :
    fn w.db = (w2.db, none) ∧ env.commitFault w.trace = none := by
  unfold dbUpdate at h
  rcases hf : fn w.db with ⟨d, r⟩
  rw [hf] at h
  cases r with
  | some e1 => simp at h
  | none =>
    simp only at h
    cases hc : env.commitFault w.trace with
    | some e2 => rw [hc] at h; simp at h
    | none =>
      rw [hc] at h
      simp only [Prod.mk.injEq, and_true] at h
      rw [← h]
      exact ⟨rfl, rfl⟩

/-- What a successful `Save` has done: the record was serialized, the key is not
empty, the pod bucket holds the serialized record under `id` and what it held before
elsewhere, and the other buckets are as they were. -/
theorem Save_ok {Bytes : Type} (env : Env Bytes) (w w2 : World Bytes) (id : GoString)
    (r : NetworkStorage) (h : Store.Save env w id r = (w2, none)) :
    ∃ js, env.codec.marshal r = .ok js ∧ id.len ≠ 0 ∧
      w2.db.bucket PodBucket = some (fun k => if k = id then some js else stored w.db k) ∧
      (∀ n, n ≠ PodBucket → w2.db.bucket n = w.db.bucket n) := by
  have h1 := (dbUpdate_ok env w _ w2 h).1
  have hp : ¬ (PodBucket = "") := by decide
  simp only [createBucketIfNotExists, hp, if_false] at h1
  cases hm : env.codec.marshal r with
  | error e =>
    cases hb : w.db.bucket PodBucket <;> simp [hb, hm] at h1
  | ok js =>
    refine ⟨js, rfl, ?_⟩
    by_cases hk : id.len = 0
    · cases hb : w.db.bucket PodBucket <;> simp [hb, hm, bucketPut, hk] at h1
    · by_cases hk2 : id.len > MaxKeySize
      · cases hb : w.db.bucket PodBucket <;> simp [hb, hm, bucketPut, hk, hk2] at h1
      · by_cases hv : env.codec.size js > MaxValueSize
        · cases hb : w.db.bucket PodBucket <;> simp [hb, hm, bucketPut, hk, hk2, hv] at h1
        · refine ⟨hk, ?_⟩
          cases hb : w.db.bucket PodBucket with
          | none =>
            simp [hb, hm, bucketPut, hk, hk2, hv, setBucket] at h1
            rw [← h1]
            refine ⟨?_, ?_⟩
            · simp [stored, hb]
            · intro n hn; simp [hn]
          | some b =>
            simp [hb, hm, bucketPut, hk, hk2, hv, setBucket] at h1
            rw [← h1]
            refine ⟨?_, ?_⟩
            · simp [stored, hb]
            · intro n hn; simp [hn]

/-- Counterexample to C4 as stated: the record has the pod name FF, one byte that is
not valid UTF-8; `Save` succeeds, the following `Query` returns no error, and the
pod name it returns is EF BF BD, the encoding of U+FFFD, not the one saved. -/
theorem save_query_invalid_utf8 :
    (Store.Save sampleEnvJson worldEmpty "abc" recordInvalidName).2 = none ∧
    (Store.Query sampleEnvJson
      (Store.Save sampleEnvJson worldEmpty "abc" recordInvalidName).1 "abc").1.2 = none ∧
    (Store.Query sampleEnvJson
      (Store.Save sampleEnvJson worldEmpty "abc" recordInvalidName).1 "abc").1.1.PodName =
      { bytes := [0xEF, 0xBF, 0xBD] } ∧
    (Store.Query sampleEnvJson
      (Store.Save sampleEnvJson worldEmpty "abc" recordInvalidName).1 "abc").1.1.PodName ≠
      recordInvalidName.PodName := by
  refine ⟨by decide, by decide, by decide, by decide⟩

/-- Claim C4, amended: for every id and every record that the codec returns from what
it serializes it to, whenever `Save(id, record)` succeeds, whatever was stored
before, an immediately following `Query(id)` returns no error and the saved record;
the values stored under every other id, and the other buckets, are unchanged. -/
theorem save_query_roundtrip {Bytes : Type} (env : Env Bytes) (w w2 : World Bytes)
    (id : GoString) (record : NetworkStorage) (hCodec : RoundTrips env.codec record)
    (hSave : Store.Save env w id record = (w2, none)) :
    (Store.Query env w2 id).1 = (record, none) ∧
    (∀ id2, id2 ≠ id → stored w2.db id2 = stored w.db id2) ∧
    (∀ n, n ≠ PodBucket → w2.db.bucket n = w.db.bucket n) := by
  obtain ⟨js, hm, _, hb, hn⟩ := Save_ok env w w2 id record hSave
  refine ⟨?_, ?_, hn⟩
  · simp [Store.Query, queryView, hb, hCodec js hm]
  · intro id2 hne
    simp [stored, hb, hne]


/-- The codec of `sampleEnvJson` returns the record `sampleRecord2`, whose strings are
valid UTF-8, as it is. -/
theorem jsonRecord_sampleRecord2 : jsonRecord sampleRecord2 = sampleRecord2 := by
  have hIP : (fun k => (if k = ("eth0" : GoString)
      then some ({ Ip := ["10.1.0.9", "fd00::9"], Mac := "aa:cc" } : IPConfig) else none).map
      (fun c => ({ Ip := c.Ip.map jsonString, Mac := jsonString c.Mac } : IPConfig))) =
      (fun k => if k = ("eth0" : GoString)
      then some ({ Ip := ["10.1.0.9", "fd00::9"], Mac := "aa:cc" } : IPConfig) else none) := by
    funext k
    by_cases h : k = ("eth0" : GoString)
    · simp only [h, if_true, Option.map_some']
      decide
    · simp [h]
  have hA : (fun k => (if k = ("team" : GoString) then some ("réseau" : GoString) else none).map
      jsonString) = (fun k => if k = ("team" : GoString) then some ("réseau" : GoString)
      else none) := by
    funext k
    by_cases h : k = ("team" : GoString)
    · simp only [h, if_true, Option.map_some']
      decide
    · simp [h]
  have hE : (fun k => (if k = ("netns" : GoString)
      then some ("/run/netns/kni-default-pod2" : GoString) else none).map jsonString) =
      (fun k => if k = ("netns" : GoString)
      then some ("/run/netns/kni-default-pod2" : GoString) else none) := by
    funext k
    by_cases h : k = ("netns" : GoString)
    · simp only [h, if_true, Option.map_some']
      decide
    · simp [h]
  have h1 : jsonString ("u2" : GoString) = "u2" := by decide
  have h2 : jsonString ("/run/netns/kni-default-pod2" : GoString) =
      "/run/netns/kni-default-pod2" := by decide
  have h3 : jsonString ("pod2" : GoString) = "pod2" := by decide
  have h4 : jsonString ("default" : GoString) = "default" := by decide
  simp only [jsonRecord, sampleRecord2, Option.map_some', hIP, hA, hE, h1, h2, h3, h4]

/-- Witness of C4, with the codec that loses what `encoding/json` loses: a record
saved under "abc" over another record is the one that the following query returns,
it is not the record stored before, and the record under "def" stays. -/
theorem save_query_roundtrip_witness :
    (Store.Query sampleEnvJson
      (Store.Save sampleEnvJson worldTwo "abc" sampleRecord2).1 "abc").1 =
      (sampleRecord2, none) ∧
    sampleRecord2.PodName ≠ sampleRecord.PodName ∧
    (stored (Store.Save sampleEnvJson worldTwo "abc" sampleRecord2).1.db "def").map
      (fun r => r.PodName) = some sampleRecord.PodName := by
  have h := save_query_roundtrip sampleEnvJson worldTwo
    (Store.Save sampleEnvJson worldTwo "abc" sampleRecord2).1 "abc" sampleRecord2
    (fun js hjs => by
      have e : js = jsonRecord sampleRecord2 := by cases hjs; rfl
      rw [e, jsonRecord_sampleRecord2]
      rfl) rfl
  refine ⟨h.1, by decide, ?_⟩
  rw [h.2.1 "def" (by decide)]
  rfl

/-! ## QueryPodNetwork and the errors of the store -/

/-- Claim C9, the code at the failing inputs: with no pod bucket the store query
fails with "bucket not created", and with a stored value that cannot be
deserialized it fails with the error of the codec; in both cases `QueryPodNetwork`
returns a successful empty response. -/
theorem QueryPodNetwork_swallows_store_error :
    (Store.Query sampleEnv worldNoBucket "abc").1.2 = some (GoError.other "bucket not created") ∧
    (QueryPodNetwork sampleEnv worldNoBucket { Id := "abc" }).1 = .ok { Ipconfigs := none } ∧
    (Store.Query sampleEnvCorrupt worldOne "abc").1.2 =
      some (GoError.other "invalid character") ∧
    (QueryPodNetwork sampleEnvCorrupt worldOne { Id := "abc" }).1 = .ok { Ipconfigs := none } :=
  ⟨rfl, rfl, rfl, rfl⟩

/-! ## AttachInterface without a namespace path -/

/-- Counterexample to C5 as stated: the request has no "netns" key, and the call
fails with the error of the bandwidth annotation, not with the missing-namespace
error. -/
theorem attach_no_netns_bandwidth_error :
    mapGet reqNoNetnsSmall.Extradata "netns" = none ∧
    (AttachInterface sampleEnv worldEmpty reqNoNetnsSmall).1 =
      .error (GoError.wrap "reading pod bandwidth annotations: " errTooSmall) ∧
    GoError.wrap "reading pod bandwidth annotations: " errTooSmall ≠ errNoNetns "abc" :=
  ⟨rfl, rfl, by decide⟩

/-- The translation of a request fails exactly when that of its bandwidth
annotations does, and with the same error. -/
theorem cniNamespaceOpts_error (lib : TranslatorLib) (id name ns uid : GoString)
    (labels annotations extra : GoMap GoString) (ports : List PortMapping)
    (dns : Option DNSConfig) :
    (∀ e, toCNIBandWidth lib annotations = .error e →
      cniNamespaceOpts lib id name ns uid labels annotations extra ports dns = .error e) ∧
    (∀ bw, toCNIBandWidth lib annotations = .ok bw →
      ∃ opts, cniNamespaceOpts lib id name ns uid labels annotations extra ports dns = .ok opts) := by
  constructor
  · intro e h
    simp [cniNamespaceOpts, h]
  · intro bw h
    simp [cniNamespaceOpts, h]

/-- Claim C5, amended: for every AttachInterface request whose extraData has no
"netns" key, the call fails, makes no call to the backend or to any other
collaborator, and leaves the Record Store unchanged; the error is the
missing-namespace error when the bandwidth annotations of the request translate,
and the error of that translation otherwise. -/
theorem attach_without_netns {Bytes : Type} (env : Env Bytes) (w : World Bytes)
    (req : AttachInterfaceRequest) (h : mapGet req.Extradata "netns" = none) :
    (AttachInterface env w req).2 = w ∧
    (∃ e, (AttachInterface env w req).1 = .error e) ∧
    (∀ bw, toCNIBandWidth env.lib req.Annotations = .ok bw →
      (AttachInterface env w req).1 = .error (errNoNetns req.Id)) ∧
    (∀ e, toCNIBandWidth env.lib req.Annotations = .error e →
      (AttachInterface env w req).1 = .error e) := by
  have hT := cniNamespaceOpts_error env.lib req.Id req.Name req.Namespace "" req.Labels
    req.Annotations req.Extradata req.PortMappings req.DnsConfig
  cases hb : toCNIBandWidth env.lib req.Annotations with
  | error e =>
    have h1 := hT.1 e hb
    simp [AttachInterface, h1]
  | ok bw =>
    obtain ⟨opts, h1⟩ := hT.2 bw hb
    simp [AttachInterface, h1, h]

/-- Witness of C5: a request with a cgroup path and no namespace path fails with
the missing-namespace error and changes nothing. -/
theorem attach_without_netns_witness :
    (AttachInterface sampleEnv worldOne reqNoNetns).2 = worldOne ∧
    (AttachInterface sampleEnv worldOne reqNoNetns).1 = .error (errNoNetns "abc") :=
  ⟨(attach_without_netns sampleEnv worldOne reqNoNetns rfl).1,
   (attach_without_netns sampleEnv worldOne reqNoNetns rfl).2.2.1 none rfl⟩


/-! ## DeleteNetwork -/

end Libkni
